import Mathlib

/-!
Shallow embedding of `HelmholtzCoils.py` (class `HelmholtzCoils`).

Numeric modelling: Python floats are embedded as exact numbers.  The stored
parameters `N`, `I`, `a` and the coil positions are rationals (all source
arithmetic on them that feeds comparisons is exact), while quantities that
involve `math.pi` or the exponent `(4/5) ** (3/2)` live in the reals.
Python `dict`s become association lists in insertion order, `dict.get`
becomes an explicit lookup returning `Option`, and a raised exception
becomes an `Except.error`.  Methods that can mutate `self` return the
updated state explicitly.
-/

/-- State of a `HelmholtzCoils` object: the fields set in `__init__`. -/
structure Model where
  N : ℤ
  I : ℚ
  a : ℚ
  lhcoil_position : ℚ
  rhcoil_position : ℚ
  deriving Repr, DecidableEq

/-- `__init__(turns_per_coil, current_per_coil, coil_radius)`. -/
def init (turns_per_coil : ℤ) (current_per_coil coil_radius : ℚ) : Model :=
  { N := turns_per_coil
    I := current_per_coil
    a := coil_radius
    lhcoil_position := -coil_radius / 2
    rhcoil_position := coil_radius / 2 }

/-- Class constant `mu_0 = 4 * math.pi * 1e-7`. -/
noncomputable def mu_0 : ℝ := 4 * Real.pi * 1e-7

/-- Class constant `resistivity_copper = 1.68e-8`. -/
def resistivity_copper : ℝ := 1.68e-8

/-- `H(self, position)`: returns `((4/5) ** (3/2)) * (self.N * self.I) / self.a`.
The `position` argument is ignored by the source. -/
noncomputable def H (m : Model) (_position : ℚ) : ℝ :=
  ((4 : ℝ) / 5) ^ ((3 : ℝ) / 2) * ((m.N : ℝ) * (m.I : ℝ)) / (m.a : ℝ)

/-- `centerH(self)`: returns `self.H(0)`. -/
noncomputable def centerH (m : Model) : ℝ := H m 0

/-- `B(self, position)`: returns `mu_0 * self.H(position) * 1000`. -/
noncomputable def B (m : Model) (position : ℚ) : ℝ := mu_0 * H m position * 1000

/-- `centerB(self)`: returns `self.B(0)`. -/
noncomputable def centerB (m : Model) : ℝ := B m 0

/-- `B_mG(self, position)`: returns `self.B(position) * 1e4`. -/
noncomputable def B_mG (m : Model) (position : ℚ) : ℝ := B m position * 1e4

/-- `wirelength(self)`: `2 * (N * (pi * 2 * a))`. -/
noncomputable def wirelength (m : Model) : ℝ :=
  2 * ((m.N : ℝ) * (Real.pi * 2 * (m.a : ℝ)))

/-- `wire_resistance(self, wire_diameter)`:
`resistivity_copper * wirelength / (pi * (wire_diameter / 2) ** 2)`. -/
noncomputable def wire_resistance (m : Model) (wire_diameter : ℝ) : ℝ :=
  resistivity_copper * wirelength m / (Real.pi * (wire_diameter / 2) ^ 2)

/-- `voltage_required(self, wire_diameter)`: `self.I * wire_resistance`. -/
noncomputable def voltage_required (m : Model) (wire_diameter : ℝ) : ℝ :=
  (m.I : ℝ) * wire_resistance m wire_diameter

/-- The `gauge_current` dict of `awg_recommendation`, in insertion order.
Decimal source values are written as exact fractions so the kernel can
evaluate them: `3.5 = 7/2`, `2.5 = 5/2`, `1.5 = 3/2`, `0.75 = 3/4`,
`0.5 = 1/2`, `0.25 = 1/4`, `0.125 = 1/8`, `0.100 = 1/10`, `0.075 = 3/40`,
`0.050 = 1/20`, `0.025 = 1/40`, `0.0125 = 1/80`. -/
def gauge_current : List (ℤ × ℚ) :=
  [(10, 15), (11, 10), (14, 5), (16, 7 / 2), (17, 5 / 2), (18, 2),
   (20, 3 / 2), (21, 1), (22, 3 / 4), (24, 1 / 2), (27, 1 / 4),
   (30, 1 / 8), (31, 1 / 10), (32, 3 / 40), (34, 1 / 20),
   (37, 1 / 40), (40, 1 / 80)]

/-- One iteration of the `for gauge, current in gauge_current.items()` loop.
The state is `(delta, awg_rec)` where `delta = none` stands for the initial
`float('inf')`. -/
def awgStep (I : ℚ) (st : Option ℚ × ℤ) (p : ℤ × ℚ) : Option ℚ × ℤ :=
  match st with
  | (none, g) => if 0 ≤ p.2 - I then (some (p.2 - I), p.1) else (none, g)
  | (some d, g) =>
      if 0 ≤ p.2 - I ∧ p.2 - I < d then (some (p.2 - I), p.1) else (some d, g)

/-- `awg_recommendation(self)`: the guarded loop over `gauge_current`,
returning `awg_rec` (initially `0`). -/
def awg_recommendation (m : Model) : ℤ :=
  if 1 / 80 ≤ m.I ∧ m.I ≤ 15 then
    (gauge_current.foldl (awgStep m.I) (none, 0)).2
  else 0

/-- Association-list rendering of Python `dict.get`: first matching key wins,
absent key gives `none`. -/
def dictGet (k : ℤ) : List (ℤ × ℚ) → Option ℚ
  | [] => none
  | (k', v) :: rest => if k = k' then some v else dictGet k rest

/-- The `awg_to_diameter` dict of `awg_diameter`, in insertion order, decimal
source values written as exact fractions (`0.002588 = 2588/1000000`, and so
on). -/
def awg_to_diameter : List (ℤ × ℚ) :=
  [(10, 2588 / 1000000), (11, 2305 / 1000000), (12, 2053 / 1000000),
   (13, 1828 / 1000000), (14, 1628 / 1000000), (15, 1450 / 1000000),
   (16, 1291 / 1000000), (17, 1150 / 1000000), (18, 1024 / 1000000),
   (19, 9116 / 10000000), (20, 8128 / 10000000), (21, 7229 / 10000000),
   (22, 6438 / 10000000)]

/-- `awg_diameter(self, awg)`: `awg_to_diameter.get(awg)`. -/
def awg_diameter (awg : ℤ) : Option ℚ := dictGet awg awg_to_diameter

/-- The fixed-key dictionary returned by `summary`, one field per entry. -/
structure SummaryResult where
  fieldAtPos : ℝ
  fluxAtPos : ℝ
  fluxAtPos_mG : ℝ
  fieldAtCenter : ℝ
  fluxAtCenter : ℝ
  wireLength : ℝ
  awgRecommendation : ℤ
  voltageRequired : ℝ

/-- `summary(self, position)`: builds the result dictionary.  The last entry
evaluates `voltage_required(awg_diameter(awg_recommendation()))`; when the
diameter lookup yields `None`, the Python call raises a `TypeError`, so the
whole call produces no dictionary — modelled as `none`. -/
noncomputable def summary (m : Model) (position : ℚ) : Option SummaryResult :=
  (awg_diameter (awg_recommendation m)).map fun d =>
    { fieldAtPos := H m position
      fluxAtPos := B m position
      fluxAtPos_mG := B_mG m position
      fieldAtCenter := centerH m
      fluxAtCenter := centerB m
      wireLength := wirelength m
      awgRecommendation := awg_recommendation m
      voltageRequired := voltage_required m ((d : ℝ)) }

/-- The `ValueError` raised by `custom_B_field_cal` for a gauge that is not
in the diameter table. -/
inductive CoilError where
  | invalidGauge (gauge : ℤ)
  deriving Repr, DecidableEq

/-- The result dictionary of `custom_B_field_cal`. -/
structure CustomResult where
  fieldAtPos : ℝ
  fluxAtPos : ℝ
  fluxAtPos_mG : ℝ
  fieldAtCenter : ℝ
  fluxAtCenter : ℝ
  wireLength : ℝ
  voltageRequired : ℝ

/-- `custom_B_field_cal(self, gauge, turns, radius, current, position)`.
The source assigns `self.N`, `self.a`, `self.I` first, then looks up the
gauge diameter and raises when it is absent; the returned pair carries the
post-call object state next to the outcome, so the state after a raised
error is visible. -/
noncomputable def custom_B_field_cal (m : Model) (gauge turns : ℤ)
    (radius current position : ℚ) : Model × Except CoilError CustomResult :=
  let m' : Model := { m with N := turns, a := radius, I := current }
  match awg_diameter gauge with
  | none => (m', Except.error (CoilError.invalidGauge gauge))
  | some wire_diameter =>
      (m', Except.ok
        { fieldAtPos := H m' position
          fluxAtPos := B m' position
          fluxAtPos_mG := B m' position * 1e4
          fieldAtCenter := centerH m'
          fluxAtCenter := centerB m'
          wireLength := wirelength m'
          voltageRequired := voltage_required m' ((wire_diameter : ℝ)) })

/-- Heterogeneous result values of the non-mutating methods. -/
inductive Value where
  | real (x : ℝ)
  | int (n : ℤ)
  | optRat (d : Option ℚ)
  | optSummary (s : Option SummaryResult)

/-- One constructor per method of the class other than
`custom_B_field_cal`, with its arguments. -/
inductive Op where
  | opH (position : ℚ)
  | opCenterH
  | opB (position : ℚ)
  | opCenterB
  | opB_mG (position : ℚ)
  | opWirelength
  | opWireResistance (wire_diameter : ℝ)
  | opVoltageRequired (wire_diameter : ℝ)
  | opAwgRecommendation
  | opAwgDiameter (awg : ℤ)
  | opSummary (position : ℚ)

/-- Runs one non-mutating method on the object state: each method body
contains no assignment to `self`, so the state it leaves behind is the one
it received. -/
noncomputable def runOp (m : Model) : Op → Model × Value
  | Op.opH p => (m, Value.real (H m p))
  | Op.opCenterH => (m, Value.real (centerH m))
  | Op.opB p => (m, Value.real (B m p))
  | Op.opCenterB => (m, Value.real (centerB m))
  | Op.opB_mG p => (m, Value.real (B_mG m p))
  | Op.opWirelength => (m, Value.real (wirelength m))
  | Op.opWireResistance d => (m, Value.real (wire_resistance m d))
  | Op.opVoltageRequired d => (m, Value.real (voltage_required m d))
  | Op.opAwgRecommendation => (m, Value.int (awg_recommendation m))
  | Op.opAwgDiameter awg => (m, Value.optRat (awg_diameter awg))
  | Op.opSummary p => (m, Value.optSummary (summary m p))

/-- Loop invariant for the `awg_recommendation` fold over the entries seen
so far: either no entry had a nonnegative `epsilon` yet, or the state holds
the entry with the smallest rating at least `I`, first occurrence winning. -/
def recInv (I : ℚ) (seen : List (ℤ × ℚ)) : Option ℚ × ℤ → Prop
  | (none, _) => ∀ p ∈ seen, p.2 < I
  | (some d, g) => 0 ≤ d ∧ (g, I + d) ∈ seen ∧ ∀ p ∈ seen, I ≤ p.2 → I + d ≤ p.2

lemma awgStep_inv (I : ℚ) (seen : List (ℤ × ℚ)) (st : Option ℚ × ℤ)
    (p : ℤ × ℚ) (h : recInv I seen st) :
    recInv I (seen ++ [p]) (awgStep I st p) := by
  obtain ⟨pg, pr⟩ := p
  obtain ⟨o, g⟩ := st
  cases o with
  | none =>
    simp only [recInv] at h
    simp only [awgStep]
    split_ifs with h0
    · refine ⟨by linarith, ?_, ?_⟩
      · have hpr : I + (pr - I) = pr := by ring
        rw [hpr]
        simp
      · intro q hq hIq
        rcases List.mem_append.1 hq with hq | hq
        · exact absurd hIq (not_le.2 (h q hq))
        · simp only [List.mem_singleton] at hq
          subst hq
          simp only []
          linarith
    · simp only [recInv]
      intro q hq
      rcases List.mem_append.1 hq with hq | hq
      · exact h q hq
      · simp only [List.mem_singleton] at hq
        subst hq
        simp only [not_le] at h0
        linarith
  | some d =>
    simp only [recInv] at h
    obtain ⟨hd, hmem, hmin⟩ := h
    simp only [awgStep]
    split_ifs with h0
    · obtain ⟨h1, h2⟩ := h0
      refine ⟨h1, ?_, ?_⟩
      · have hpr : I + (pr - I) = pr := by ring
        rw [hpr]
        simp
      · intro q hq hIq
        rcases List.mem_append.1 hq with hq | hq
        · have := hmin q hq hIq
          linarith
        · simp only [List.mem_singleton] at hq
          subst hq
          simp only []
          linarith
    · refine ⟨hd, List.mem_append_left _ hmem, ?_⟩
      intro q hq hIq
      rcases List.mem_append.1 hq with hq | hq
      · exact hmin q hq hIq
      · simp only [List.mem_singleton] at hq
        subst hq
        simp only [] at hIq ⊢
        rcases le_or_lt 0 (pr - I) with hge | hlt
        · have : ¬ pr - I < d := fun hc => h0 ⟨hge, hc⟩
          linarith [not_lt.1 this]
        · linarith

lemma foldl_awgStep_inv (I : ℚ) :
    ∀ (l seen : List (ℤ × ℚ)) (st : Option ℚ × ℤ), recInv I seen st →
      recInv I (seen ++ l) (l.foldl (awgStep I) st)
  | [], seen, st, h => by simpa using h
  | x :: xs, seen, st, h => by
    have h2 := awgStep_inv I seen st x h
    have h3 := foldl_awgStep_inv I xs (seen ++ [x]) (awgStep I st x) h2
    simpa [List.append_assoc] using h3

set_option linter.constructorNameAsVariable false in
/-- Specification of the fold result over any table: when some entry has a
rating at least `I`, the returned gauge is paired in the table with the
minimal such rating. -/
lemma awg_fold_spec (I : ℚ) (l : List (ℤ × ℚ)) (hex : ∃ p ∈ l, I ≤ p.2) :
    ∃ r, ((l.foldl (awgStep I) (none, 0)).2, r) ∈ l ∧
      I ≤ r ∧ ∀ p ∈ l, I ≤ p.2 → r ≤ p.2 := by
  have h0 : recInv I [] ((none : Option ℚ), (0 : ℤ)) := by
    simp [recInv]
  have h := foldl_awgStep_inv I l [] _ h0
  rw [List.nil_append] at h
  rcases hres : l.foldl (awgStep I) (none, 0) with ⟨o, g⟩
  rw [hres] at h
  cases o with
  | none =>
    obtain ⟨p, hp, hIp⟩ := hex
    simp only [recInv] at h
    exact absurd hIp (not_le.2 (h p hp))
  | some d =>
    obtain ⟨hd, hmem, hmin⟩ := h
    exact ⟨I + d, hmem, by linarith, hmin⟩

/-- Evaluation helper: the gauge recommended for a current of 5 A is 14,
the entry with the smallest rating at least 5. -/
lemma awg_rec_five : awg_recommendation (init 20 5 (1 / 40)) = 14 := by
  norm_num [awg_recommendation, init, gauge_current, awgStep]

/-- Evaluation helper: the diameter table at gauge 14. -/
lemma awg_diameter_14 : awg_diameter 14 = some (1628 / 1000000) := by
  norm_num [awg_diameter, awg_to_diameter, dictGet]

/-- Evaluation helper: gauge 23 is absent from the diameter table. -/
lemma awg_diameter_23 : awg_diameter 23 = none := by
  norm_num [awg_diameter, awg_to_diameter, dictGet]

/-- C1 counterexample: calling `custom_B_field_cal` on the example object
with the absent gauge 23 raises the invalid-gauge error, yet the stored
turns count is no longer the pre-call value 20 — the failure is not atomic. -/
theorem c1_counterexample :
    (custom_B_field_cal (init 20 5 (1 / 40)) 23 10 (1 / 20) 2 0).2 =
      Except.error (CoilError.invalidGauge 23) ∧
    (custom_B_field_cal (init 20 5 (1 / 40)) 23 10 (1 / 20) 2 0).1.N ≠
      (init 20 5 (1 / 40)).N := by
  constructor
  · simp [custom_B_field_cal, awg_diameter_23]
  · simp [custom_B_field_cal, awg_diameter_23, init]

/-- C1 (amended): with a gauge absent from the diameter table,
`custom_B_field_cal` fails with the invalid-gauge error, but only after the
stored parameters `turns`, `radius` and `current` have been overwritten with
the arguments of the call. -/
theorem c1_amended_mutation (m : Model) (gauge turns : ℤ)
    (radius current position : ℚ) (h : awg_diameter gauge = none) :
    (custom_B_field_cal m gauge turns radius current position).2 =
      Except.error (CoilError.invalidGauge gauge) ∧
    (custom_B_field_cal m gauge turns radius current position).1.N = turns ∧
    (custom_B_field_cal m gauge turns radius current position).1.a = radius ∧
    (custom_B_field_cal m gauge turns radius current position).1.I = current := by
  refine ⟨?_, ?_, ?_, ?_⟩ <;> simp [custom_B_field_cal, h]

/-- C1 witness: the amended statement at the concrete failing call. -/
theorem c1_witness :
    (custom_B_field_cal (init 20 5 (1 / 40)) 23 10 (1 / 20) 2 0).2 =
      Except.error (CoilError.invalidGauge 23) ∧
    (custom_B_field_cal (init 20 5 (1 / 40)) 23 10 (1 / 20) 2 0).1.N = 10 ∧
    (custom_B_field_cal (init 20 5 (1 / 40)) 23 10 (1 / 20) 2 0).1.a = 1 / 20 ∧
    (custom_B_field_cal (init 20 5 (1 / 40)) 23 10 (1 / 20) 2 0).1.I = 2 :=
  c1_amended_mutation (init 20 5 (1 / 40)) 23 10 (1 / 20) 2 0 awg_diameter_23

/-- Evaluation helper: the summary of the example object, with the record it
returns made explicit. -/
lemma summary_example_eq :
    summary (init 20 5 (1 / 40)) 0 = some
      { fieldAtPos := H (init 20 5 (1 / 40)) 0
        fluxAtPos := B (init 20 5 (1 / 40)) 0
        fluxAtPos_mG := B_mG (init 20 5 (1 / 40)) 0
        fieldAtCenter := centerH (init 20 5 (1 / 40))
        fluxAtCenter := centerB (init 20 5 (1 / 40))
        wireLength := wirelength (init 20 5 (1 / 40))
        awgRecommendation := 14
        voltageRequired :=
          voltage_required (init 20 5 (1 / 40)) (((1628 / 1000000 : ℚ) : ℝ)) } := by
  unfold summary
  rw [awg_rec_five, awg_diameter_14]
  rfl

/-- Bound used by C2: the wire length of the example object is `2 * pi` and
lies within `1e-3` of `6.2832`. -/
lemma wirelength_example_bound :
    |wirelength (init 20 5 (1 / 40)) - 6.2832| < 1e-3 := by
  have hl := Real.pi_gt_d6
  have hu := Real.pi_lt_d6
  have he : wirelength (init 20 5 (1 / 40)) = 2 * Real.pi := by
    simp only [wirelength, init]
    push_cast
    ring
  rw [he, abs_lt]
  constructor <;> norm_num <;> nlinarith

/-- C2 counterexample: the summary of `CoilModel.create(20, 5, 0.025)` at
position 0 recommends gauge 14 (rating 5, the smallest rating at least the
5 A current), not gauge 11 as the claim states. -/
theorem c2_counterexample :
    ¬ ∃ s, summary (init 20 5 (1 / 40)) 0 = some s ∧
      |s.wireLength - 6.2832| < 1e-3 ∧ s.awgRecommendation = 11 := by
  rintro ⟨s, hs, -, hg⟩
  rw [summary_example_eq, Option.some_inj] at hs
  rw [← hs] at hg
  simp at hg

/-- C2 (amended): `summary(0)` on the model built with `turns = 20`,
`current = 5`, `radius = 0.025` yields a wire length within `1e-3` of
`6.2832` and a recommended gauge of 14. -/
theorem c2_summary_values :
    ∃ s, summary (init 20 5 (1 / 40)) 0 = some s ∧
      |s.wireLength - 6.2832| < 1e-3 ∧ s.awgRecommendation = 14 := by
  refine ⟨_, summary_example_eq, ?_, rfl⟩
  exact wirelength_example_bound

/-- C3: outside the closed current interval [0.0125, 15] the recommendation
is the sentinel 0; inside it, whenever some table entry has a rating at
least the current, the returned gauge is paired in the table with the
minimal such rating; and a current of 2.4 A selects gauge 17. -/
theorem c3_recommendation_spec (m : Model) :
    (¬ (0.0125 ≤ m.I ∧ m.I ≤ 15) → awg_recommendation m = 0) ∧
    ((0.0125 ≤ m.I ∧ m.I ≤ 15) → (∃ p ∈ gauge_current, m.I ≤ p.2) →
      ∃ r, (awg_recommendation m, r) ∈ gauge_current ∧ m.I ≤ r ∧
        ∀ p ∈ gauge_current, m.I ≤ p.2 → r ≤ p.2) ∧
    (m.I = 2.4 → awg_recommendation m = 17) := by
  have hq : (0.0125 : ℚ) = 1 / 80 := by norm_num
  refine ⟨?_, ?_, ?_⟩
  · intro h
    rw [hq] at h
    simp only [awg_recommendation, if_neg h]
  · intro h hex
    rw [hq] at h
    simp only [awg_recommendation, if_pos h]
    exact awg_fold_spec m.I gauge_current hex
  · intro h
    have h24 : (2.4 : ℚ) = 12 / 5 := by norm_num
    rw [h24] at h
    simp only [awg_recommendation, h]
    norm_num [gauge_current, awgStep]

/-- C3 witness: the three cases at concrete currents — 16 A is out of range,
5 A is in range with gauge 14 carrying the minimal rating at least 5, and
2.4 A selects gauge 17. -/
theorem c3_witness :
    awg_recommendation (init 20 16 (1 / 40)) = 0 ∧
    (∃ r, (awg_recommendation (init 20 5 (1 / 40)), r) ∈ gauge_current ∧
      (init 20 5 (1 / 40)).I ≤ r ∧
      ∀ p ∈ gauge_current, (init 20 5 (1 / 40)).I ≤ p.2 → r ≤ p.2) ∧
    awg_recommendation (init 20 2.4 (1 / 40)) = 17 :=
  ⟨(c3_recommendation_spec (init 20 16 (1 / 40))).1 (by norm_num [init]),
   (c3_recommendation_spec (init 20 5 (1 / 40))).2.1 (by norm_num [init])
     ⟨(10, 15), by simp [gauge_current], by norm_num [init]⟩,
   (c3_recommendation_spec (init 20 2.4 (1 / 40))).2.2 (by norm_num [init])⟩

/-- C4: the field at any axial position equals
`(4/5) ** (3/2) * turns * current / radius`, independently of the position
argument, and the center field is the field at position 0. -/
theorem c4_field_position_independent (m : Model) (p : ℚ)
    (_ht : 0 < m.N) (_ha : 0 < m.a) :
    H m p = ((4 : ℝ) / 5) ^ ((3 : ℝ) / 2) * (m.N : ℝ) * (m.I : ℝ) / (m.a : ℝ) ∧
    H m p = H m 0 ∧ centerH m = H m 0 := by
  refine ⟨?_, rfl, rfl⟩
  simp only [H]
  ring

/-- C4 witness: the formula at the example object and position 3. -/
theorem c4_witness :
    H (init 20 5 (1 / 40)) 3 =
      ((4 : ℝ) / 5) ^ ((3 : ℝ) / 2) * ((init 20 5 (1 / 40)).N : ℝ) *
        ((init 20 5 (1 / 40)).I : ℝ) / ((init 20 5 (1 / 40)).a : ℝ) ∧
    H (init 20 5 (1 / 40)) 3 = H (init 20 5 (1 / 40)) 0 ∧
    centerH (init 20 5 (1 / 40)) = H (init 20 5 (1 / 40)) 0 :=
  c4_field_position_independent (init 20 5 (1 / 40)) 3
    (by norm_num [init]) (by norm_num [init])

/-- A `dictGet` lookup is absent exactly when the key is outside the key
column of the table. -/
lemma dictGet_eq_none_iff (k : ℤ) (l : List (ℤ × ℚ)) :
    dictGet k l = none ↔ k ∉ l.map Prod.fst := by
  induction l with
  | nil => simp [dictGet]
  | cons p rest ih =>
    obtain ⟨k', v⟩ := p
    simp only [dictGet, List.map_cons, List.mem_cons]
    split_ifs with hk
    · simp [hk]
    · simp [hk, ih]

/-- The key column of the diameter table is exactly the gauges 10 to 22. -/
lemma awg_keys : awg_to_diameter.map Prod.fst =
    [10, 11, 12, 13, 14, 15, 16, 17, 18, 19, 20, 21, 22] := rfl

/-- C5: the diameter lookup yields an explicit absence signal exactly for
gauges outside 10..22; gauge 23 is absent and gauge 14 maps to 0.001628 m. -/
theorem c5_diameter_domain :
    (∀ awg : ℤ, awg_diameter awg = none ↔ ¬ (10 ≤ awg ∧ awg ≤ 22)) ∧
    awg_diameter 23 = none ∧ awg_diameter 14 = some 0.001628 := by
  refine ⟨?_, awg_diameter_23, ?_⟩
  · intro awg
    rw [awg_diameter, dictGet_eq_none_iff, awg_keys]
    simp only [List.mem_cons, List.not_mem_nil, or_false]
    omega
  · rw [awg_diameter_14]
    norm_num

/-- C6: running any method other than `custom_B_field_cal` leaves the object
state — in particular the stored `turns`, `current` and `radius` —
unchanged. -/
theorem c6_frame (m : Model) (op : Op) : (runOp m op).1 = m := by
  cases op <;> rfl

/-- C7: the wire length is `2 * turns * (2 * pi * radius)` and doubles when
either the turns count or the radius doubles. -/
theorem c7_wirelength_linear (m : Model) :
    wirelength m = 2 * (m.N : ℝ) * (2 * Real.pi * (m.a : ℝ)) ∧
    wirelength { m with N := 2 * m.N } = 2 * wirelength m ∧
    wirelength { m with a := 2 * m.a } = 2 * wirelength m := by
  refine ⟨?_, ?_, ?_⟩ <;>
    · simp only [wirelength]
      push_cast
      ring

/-- C8: the wire resistance follows the stated formula, and doubling the
diameter divides the resistance by four. -/
theorem c8_resistance (m : Model) (d : ℝ) (_hd : d ≠ 0) :
    wire_resistance m d =
      resistivity_copper * wirelength m / (Real.pi * (d / 2) ^ 2) ∧
    wire_resistance m (2 * d) = wire_resistance m d / 4 := by
  refine ⟨rfl, ?_⟩
  simp only [wire_resistance]
  rw [div_div]
  congr 1
  ring

/-- C8 witness: the resistance relations at the example object with a wire
diameter of 1 m. -/
theorem c8_witness :
    wire_resistance (init 20 5 (1 / 40)) 1 =
      resistivity_copper * wirelength (init 20 5 (1 / 40)) /
        (Real.pi * ((1 : ℝ) / 2) ^ 2) ∧
    wire_resistance (init 20 5 (1 / 40)) (2 * 1) =
      wire_resistance (init 20 5 (1 / 40)) 1 / 4 :=
  c8_resistance (init 20 5 (1 / 40)) 1 one_ne_zero

/-- C9: a successful `custom_B_field_cal` with a new radius leaves the stored
coil positions at plus and minus half the construction radius; they do not
become plus and minus half the new radius. -/
theorem c9_positions_stale (turns : ℤ) (cur rad : ℚ) (gauge t : ℤ)
    (r c p : ℚ)
    (_hok : ∃ out, (custom_B_field_cal (init turns cur rad) gauge t r c p).2 =
      Except.ok out)
    (hne : r ≠ rad) :
    Model.lhcoil_position (custom_B_field_cal (init turns cur rad) gauge t r c p).1 = -rad / 2 ∧
    Model.rhcoil_position (custom_B_field_cal (init turns cur rad) gauge t r c p).1 = rad / 2 ∧
    Model.lhcoil_position (custom_B_field_cal (init turns cur rad) gauge t r c p).1 ≠ -r / 2 ∧
    Model.rhcoil_position (custom_B_field_cal (init turns cur rad) gauge t r c p).1 ≠ r / 2 := by
  have h1 : Model.lhcoil_position
      (custom_B_field_cal (init turns cur rad) gauge t r c p).1 = -rad / 2 := by
    rcases hg : awg_diameter gauge with _ | d <;>
      simp [custom_B_field_cal, hg, init]
  have h2 : Model.rhcoil_position
      (custom_B_field_cal (init turns cur rad) gauge t r c p).1 = rad / 2 := by
    rcases hg : awg_diameter gauge with _ | d <;>
      simp [custom_B_field_cal, hg, init]
  refine ⟨h1, h2, ?_, ?_⟩
  · rw [h1]
    intro heq
    exact hne (by linarith)
  · rw [h2]
    intro heq
    exact hne (by linarith)

/-- C9 witness: the concrete successful call with gauge 14 and a new radius
of 0.05 on the object built with radius 0.025. -/
theorem c9_witness :
    Model.lhcoil_position (custom_B_field_cal (init 20 5 (1 / 40)) 14 10 (1 / 20) 1 0).1 = -(1 / 40) / 2 ∧
    Model.rhcoil_position (custom_B_field_cal (init 20 5 (1 / 40)) 14 10 (1 / 20) 1 0).1 = (1 / 40) / 2 ∧
    Model.lhcoil_position (custom_B_field_cal (init 20 5 (1 / 40)) 14 10 (1 / 20) 1 0).1 ≠ -(1 / 20) / 2 ∧
    Model.rhcoil_position (custom_B_field_cal (init 20 5 (1 / 40)) 14 10 (1 / 20) 1 0).1 ≠ (1 / 20) / 2 :=
  c9_positions_stale 20 5 (1 / 40) 14 10 (1 / 20) 1 0 ⟨_, rfl⟩ (by norm_num)

/-- C10: when the stored current is outside [0.0125, 15], the recommendation
is the sentinel 0, the diameter lookup at 0 is absent, and `summary` fails
instead of returning a result. -/
theorem c10_summary_fails (m : Model) (p : ℚ)
    (h : ¬ (0.0125 ≤ m.I ∧ m.I ≤ 15)) :
    awg_recommendation m = 0 ∧ awg_diameter 0 = none ∧ summary m p = none := by
  have h' : ¬ (1 / 80 ≤ m.I ∧ m.I ≤ 15) := by
    rw [show (1 / 80 : ℚ) = 0.0125 from by norm_num]
    exact h
  have hrec : awg_recommendation m = 0 := by
    simp only [awg_recommendation, if_neg h']
  have hd : awg_diameter 0 = none := by
    norm_num [awg_diameter, awg_to_diameter, dictGet]
  refine ⟨hrec, hd, ?_⟩
  rw [summary, hrec, hd]
  rfl

/-- C10 witness: the object built with a 16 A current. -/
theorem c10_witness :
    awg_recommendation (init 20 16 (1 / 40)) = 0 ∧ awg_diameter 0 = none ∧
    summary (init 20 16 (1 / 40)) 0 = none :=
  c10_summary_fails (init 20 16 (1 / 40)) 0 (by norm_num [init])
